import Mathlib

/-! Verification of the standalone Z8000 emulator (non-segmented Z8002 core,
with the segmented-mode addressing decoder) against its specification.

The CPU engine is embedded from `src/src/z8000.cpp` and the memory backing
store from `src/src/memory.h`.  Machine integers are `Nat` with explicit
masks (`% 2^16`, `% 2^32`, `&&&`) where the C types truncate.  The abstract
buses of `z8000_intf.h` are modelled as functions (reads) and event logs
(writes).  Definitions that come from headers absent from the tree
(`z8000.h`, `z8000cpu.h`, `z8000ops.hxx`, `z8000tbl.hxx`) are marked
`Modelled from the spec:` in their doc comments. -/

namespace Z8000

/-- FCW flag and control bits.  Modelled from the spec: the missing header
z8000.h defines these; spec section 6 fixes `S_N = 0x4000` and
`SEG = 0x8000`, and the arithmetic flags occupy the low byte in the order
C, Z, S, PV, DA, H (spec section 4.3 and `dump_regs`). -/
def F_SEG : Nat := 0x8000

/-- System/normal mode bit of FCW (spec section 6: 0x4000). -/
def F_S_N : Nat := 0x4000

/-- EPU-present bit of FCW.  Modelled from the spec (section 3). -/
def F_EPU : Nat := 0x2000

/-- Vectored-interrupt enable bit of FCW.  Modelled from the spec. -/
def F_VIE : Nat := 0x1000

/-- Non-vectored-interrupt enable bit of FCW.  Modelled from the spec. -/
def F_NVIE : Nat := 0x0800

/-- Carry flag. -/
def F_C : Nat := 0x0080

/-- Zero flag. -/
def F_Z : Nat := 0x0040

/-- Sign flag. -/
def F_S : Nat := 0x0020

/-- Parity/overflow flag. -/
def F_PV : Nat := 0x0010

/-- Decimal-adjust flag. -/
def F_DA : Nat := 0x0008

/-- Half-carry flag. -/
def F_H : Nat := 0x0004

/-- Modelled from the spec: `irq_req` bit assignment from the missing header
z8000.h.  Spec section 4.6 lists the causes highest priority first; one
distinct bit per cause is all `Interrupt()` in z8000.cpp depends on. -/
def Z8000_RESET : Nat := 0x8000

/-- Pending-EPU-trap bit of `irq_req`.  Modelled from the spec. -/
def Z8000_EPU : Nat := 0x4000

/-- Pending-privileged-trap bit of `irq_req`.  Modelled from the spec. -/
def Z8000_TRAP : Nat := 0x2000

/-- Pending-syscall bit of `irq_req`.  Modelled from the spec. -/
def Z8000_SYSCALL : Nat := 0x1000

/-- Pending-segmentation-trap bit of `irq_req`.  Modelled from the spec. -/
def Z8000_SEGTRAP : Nat := 0x0800

/-- Pending-NMI bit of `irq_req`.  Modelled from the spec. -/
def Z8000_NMI : Nat := 0x0400

/-- Pending-NVI bit of `irq_req`.  Modelled from the spec. -/
def Z8000_NVI : Nat := 0x0200

/-- Pending-VI bit of `irq_req`.  Modelled from the spec. -/
def Z8000_VI : Nat := 0x0100

/-- Bit helper from include/emu.h: `BIT(val, bit) = (val >> bit) & 1`. -/
def BIT (val bit : Nat) : Nat := (val >>> bit) &&& 1

/-! ### MemoryRegion (src/src/memory.h)

The backing store is a `u8` array of `m_size` bytes.  It is modelled as a
function from offsets to `Nat`; every read coerces the stored cell with
`% 256`, exactly where the C `u8` element type truncates, and every write
stores the truncated byte. -/

/-- Flat-array memory region of src/src/memory.h: `m_size` bytes of
backing store. -/
structure MemoryRegion where
  size : Nat
  data : Nat → Nat

/-- The offset into the backing array touched by a byte access:
`addr &= (m_size - 1)` with `addr : u32`. -/
def byteIndex (size addr : Nat) : Nat := addr &&& (size - 1)

/-- The first offset touched by a word access:
`addr &= (m_size - 1) & ~1` where `m_size - 1` is a 64-bit `size_t`. -/
def wordIndex (size addr : Nat) : Nat :=
  addr &&& ((size - 1) &&& 0xFFFFFFFFFFFFFFFE)

/-- MemoryRegion::read_byte: wrap the address and read one byte. -/
def read_byte (r : MemoryRegion) (addr : Nat) : Nat :=
  r.data (byteIndex r.size addr) % 256

/-- MemoryRegion::read_word: align and wrap the address and read the
big-endian word `(m_data[addr] << 8) | m_data[addr + 1]`. -/
def read_word (r : MemoryRegion) (addr : Nat) : Nat :=
  ((r.data (wordIndex r.size addr) % 256) <<< 8) |||
    (r.data (wordIndex r.size addr + 1) % 256)

/-- MemoryRegion::write_byte: wrap the address and store the byte. -/
def write_byte (r : MemoryRegion) (addr val : Nat) : MemoryRegion :=
  { r with data := fun j =>
      if j = byteIndex r.size addr then val % 256 else r.data j }

/-- MemoryRegion::write_word (unmasked): align and wrap the address, then
store the high byte at `addr` and the low byte at `addr + 1`. -/
def write_word (r : MemoryRegion) (addr val : Nat) : MemoryRegion :=
  { r with data := fun j =>
      if j = wordIndex r.size addr then ((val % 65536) >>> 8) &&& 0xFF
      else if j = wordIndex r.size addr + 1 then (val % 65536) &&& 0xFF
      else r.data j }

/-- MemoryRegion::write_word with mask: read-modify-write keeping the bits
of the existing word where the mask bit is clear
(`new_val = (existing & ~mask) | (val & mask)` on `u16`). -/
def write_word_masked (r : MemoryRegion) (addr val mask : Nat) : MemoryRegion :=
  let a := wordIndex r.size addr
  let existing := read_word r a
  let new_val := (existing &&& (0xFFFF ^^^ (mask % 65536))) ||| ((val % 65536) &&& (mask % 65536))
  { r with data := fun j =>
      if j = a then (new_val >>> 8) &&& 0xFF
      else if j = a + 1 then new_val &&& 0xFF
      else r.data j }

/-! ### CPU-side memory helpers specialised to a MemoryRegion space
(z8000.cpp `RDMEM_W` / `WRMEM_W` / `WRMEM_B`; on the Z8002,
`adjust_addr_for_nonseg_mode` is the identity). -/

/-- z8002_device::adjust_addr_for_nonseg_mode: identity on the Z8002. -/
def adjust_addr_for_nonseg_mode (addr : Nat) : Nat := addr

/-- z8002_device::RDMEM_W over a MemoryRegion space: force address bit 0
to zero, then bus read (`addr : u32`). -/
def RDMEM_W_mr (r : MemoryRegion) (addr : Nat) : Nat :=
  read_word r ((adjust_addr_for_nonseg_mode addr % 4294967296) &&& 0xFFFFFFFE)

/-- z8002_device::WRMEM_W over a MemoryRegion space: force address bit 0
to zero, then bus write. -/
def WRMEM_W_mr (r : MemoryRegion) (addr val : Nat) : MemoryRegion :=
  write_word r ((adjust_addr_for_nonseg_mode addr % 4294967296) &&& 0xFFFFFFFE) val

/-- z8002_device::WRMEM_B over a MemoryRegion space: duplicate the byte
into both halves of a word and issue a masked word write, with mask
`0x00ff` for an odd address and `0xff00` for an even one. -/
def WRMEM_B_mr (r : MemoryRegion) (addr value : Nat) : MemoryRegion :=
  let a := adjust_addr_for_nonseg_mode addr % 4294967296
  let value16 := (value % 256) ||| ((value % 256) <<< 8)
  write_word_masked r (a &&& 0xFFFFFFFE) value16 (if BIT a 0 ≠ 0 then 0x00ff else 0xff00)

/-! ### CPU state (z8002_device members used by the embedded routines)

The abstract program bus (`z8000_intf.h`) is a host-supplied word-read
function; its `u16` return type is applied at every read.  Writes issued on
the abstract stack bus are recorded as `(address, value)` events, newest
first. -/

/-- CPU state of z8002_device.  `regs` is the word view `RW(0..15)` of the
register file; `op` is the four-slot operand cache `m_op[0..3]`. -/
structure Z8002State where
  ppc : Nat
  pc : Nat
  psapseg : Nat
  psapoff : Nat
  fcw : Nat
  refresh : Nat
  nspseg : Nat
  nspoff : Nat
  irq_req : Nat
  irq_vec : Nat
  op : Nat → Nat
  op_valid : Nat
  nmi_state : Nat
  irq_state0 : Nat
  irq_state1 : Nat
  mi : Nat
  halt : Bool
  icount : Int
  total_cycles : Nat
  regs : Nat → Nat
  progR : Nat → Nat
  stackW : List (Nat × Nat)

/-- Read a word from an abstract memory bus: the address is a `u32` and the
result a `u16`. -/
def busReadW (bus : Nat → Nat) (addr : Nat) : Nat :=
  bus (addr % 4294967296) % 65536

/-- Update one slot of the operand cache `m_op[]`. -/
def opSet (f : Nat → Nat) (n w : Nat) : Nat → Nat :=
  fun j => if j = n then w else f j

/-- Update one word register of the register file. -/
def regSet (f : Nat → Nat) (n w : Nat) : Nat → Nat :=
  fun j => if j = n then w else f j

/-- z8002_device::RDOP: fetch the word at `pc` via the program bus and
advance `pc` by two (`u32` wraparound). -/
def RDOP (s : Z8002State) : Z8002State × Nat :=
  let res := busReadW s.progR s.pc
  ({ s with pc := (s.pc + 2) % 4294967296 }, res)

/-- z8002_device::get_operand: on a miss of operand slot `opnum`, fetch one
word from the program bus, advance `pc` by two, store it and mark the slot
valid; then return the slot.  The `assert`s on the lower slots are
side-effect free and are not part of the state transformer. -/
def get_operand (s : Z8002State) (opnum : Nat) : Z8002State × Nat :=
  if s.op_valid &&& (1 <<< opnum) = 0 then
    let w := busReadW s.progR s.pc
    ({ s with
        op := opSet s.op opnum w
        pc := (s.pc + 2) % 4294967296
        op_valid := s.op_valid ||| (1 <<< opnum) }, w)
  else
    (s, s.op opnum)

/-- z8002_device::get_addr_operand: on a miss, fetch one word; in segmented
mode (the virtual `get_segmented_mode()`, passed here as `seg`) a set bit
15 selects the long form `((word1 & 0x7f00) << 8) | word2` consuming a
second word, a clear bit 15 the short form
`((word1 & 0x7f00) << 8) | (word1 & 0xff)`; in non-segmented mode the word
itself is the address. -/
def get_addr_operand (seg : Bool) (s : Z8002State) (opnum : Nat) :
    Z8002State × Nat :=
  if s.op_valid &&& (1 <<< opnum) = 0 then
    let w1 := busReadW s.progR s.pc
    let pc1 := (s.pc + 2) % 4294967296
    if seg then
      if w1 &&& 0x8000 ≠ 0 then
        let w2 := busReadW s.progR pc1
        let v := ((w1 &&& 0x7f00) <<< 8) ||| w2
        ({ s with
            op := opSet s.op opnum v
            pc := (pc1 + 2) % 4294967296
            op_valid := s.op_valid ||| (1 <<< opnum) }, v)
      else
        let v := ((w1 &&& 0x7f00) <<< 8) ||| (w1 &&& 0xff)
        ({ s with
            op := opSet s.op opnum v
            pc := pc1
            op_valid := s.op_valid ||| (1 <<< opnum) }, v)
    else
      ({ s with
          op := opSet s.op opnum w1
          pc := pc1
          op_valid := s.op_valid ||| (1 <<< opnum) }, w1)
  else
    (s, s.op opnum)

/-! ### Flag lookup table (z8002_device::init_tables) -/

/-- Entry `i` of the zero/sign/parity table built by
z8002_device::init_tables: `F_Z` for zero, `F_S` for bit 7, and `F_PV`
when the xor-fold of all eight bits is zero (even parity). -/
def z8000_zsp (i : Nat) : Nat :=
  (if i = 0 then F_Z else 0) |||
    (if i &&& 128 ≠ 0 then F_S else 0) |||
      (if (((i >>> 7) ^^^ (i >>> 6) ^^^ (i >>> 5) ^^^ (i >>> 4) ^^^
            (i >>> 3) ^^^ (i >>> 2) ^^^ (i >>> 1) ^^^ i) &&& 1) ≠ 0
       then 0 else F_PV)

/-! ### Spec-modelled pieces of the interrupt unit

`PUSHW`, `CHANGE_FCW`, `SP` and the program-status-area offsets live in the
headers z8000.h / z8000cpu.h, which are not in the tree; they are modelled
from the spec (sections 4.2 and 4.6). -/

/-- z8002_device::PSA_ADDR (z8000.cpp): the program-status-area base is
`m_psapoff` on the non-segmented device. -/
def PSA_ADDR (s : Z8002State) : Nat := s.psapoff

/-- Modelled from the spec: program-status-area offset of the EPU vector
(missing header z8000cpu.h).  The claims depend only on the vectors being
fixed offsets from the PSA base (spec section 4.6). -/
def vecEPU (s : Z8002State) : Nat := PSA_ADDR s + 0x0004

/-- Modelled from the spec: PSA offset of the privileged-trap vector. -/
def vecTRAP (s : Z8002State) : Nat := PSA_ADDR s + 0x000c

/-- Modelled from the spec: PSA offset of the SYSCALL vector. -/
def vecSYSCALL (s : Z8002State) : Nat := PSA_ADDR s + 0x0014

/-- Modelled from the spec: PSA offset of the segmentation-trap vector. -/
def vecSEGTRAP (s : Z8002State) : Nat := PSA_ADDR s + 0x001c

/-- Modelled from the spec: PSA offset of the NMI vector. -/
def vecNMI (s : Z8002State) : Nat := PSA_ADDR s + 0x0024

/-- Modelled from the spec: PSA offset of the NVI vector. -/
def vecNVI (s : Z8002State) : Nat := PSA_ADDR s + 0x002c

/-- Modelled from the spec: PSA offset of the VI base vector. -/
def vecVI (s : Z8002State) : Nat := PSA_ADDR s + 0x0034

/-- Modelled from the spec: base of the vectored-interrupt table `VEC00`
within the PSA (glossary). -/
def VEC00 (s : Z8002State) : Nat := PSA_ADDR s + 0x0038

/-- z8002_device::RDMEM_W on the abstract program bus: identity address
adjustment on the Z8002, force bit 0 of the `u32` address to zero, read. -/
def RDMEM_W_prog (s : Z8002State) (addr : Nat) : Nat :=
  busReadW s.progR ((adjust_addr_for_nonseg_mode addr % 4294967296) &&& 0xFFFFFFFE)

/-- z8002_device::WRMEM_W on the abstract stack bus: force bit 0 of the
`u32` address to zero and record the word write event. -/
def WRMEM_W_stack (s : Z8002State) (addr val : Nat) : Z8002State :=
  { s with stackW :=
      ((adjust_addr_for_nonseg_mode addr % 4294967296) &&& 0xFFFFFFFE, val % 65536) :: s.stackW }

/-- Modelled from the spec: the `PUSHW(SP, data)` macro of the missing
header z8000cpu.h.  Spec section 4.2: on the non-segmented device the
stack pointer is `R15`, predecremented by two on push, and the word is
written through the stack bus. -/
def PUSHW (s : Z8002State) (v : Nat) : Z8002State :=
  let sp := (s.regs 15 + 65536 - 2) % 65536
  WRMEM_W_stack { s with regs := regSet s.regs 15 sp } sp v

/-- z8002_device::PUSH_PC (z8000.cpp): push the current `pc` as one word. -/
def PUSH_PC (s : Z8002State) : Z8002State := PUSHW s s.pc

/-- Modelled from the spec: `CHANGE_FCW` of the missing header z8000cpu.h.
Spec section 3 (invariant 2 and `nsp`): when the S_N bit flips, the active
stack pointer `R15` is swapped with the normal-stack shadow `nspoff`; the
FCW is then replaced by the new value. -/
def CHANGE_FCW (s : Z8002State) (fcw : Nat) : Z8002State :=
  let f := fcw % 65536
  let s1 :=
    if (f ^^^ s.fcw) &&& F_S_N ≠ 0 then
      { s with regs := regSet s.regs 15 s.nspoff, nspoff := s.regs 15 }
    else s
  { s1 with fcw := f }

/-- z8002_device::GET_FCW (z8000.cpp): the FCW slot of a vector is the word
at the vector address. -/
def GET_FCW (s : Z8002State) (vec : Nat) : Nat := RDMEM_W_prog s vec

/-- z8002_device::GET_PC (z8000.cpp): the PC slot of a vector is the word
two bytes after the vector address. -/
def GET_PC (s : Z8002State) (vec : Nat) : Nat := RDMEM_W_prog s (vec + 2)

/-- z8002_device::get_reset_pc (z8000.cpp): the reset PC is the word at
address 4. -/
def get_reset_pc (s : Z8002State) : Nat := RDMEM_W_prog s 4

/-- z8002_device::read_irq_vector (z8000.cpp): word at
`VEC00 + 2 * (irq_vec & 0xff)`. -/
def read_irq_vector (s : Z8002State) : Nat :=
  RDMEM_W_prog s (VEC00 s + 2 * (s.irq_vec &&& 0xff))

/-- z8002_device::Interrupt (z8000.cpp): prioritized service of the pending
causes, in source order RESET, EPU, TRAP, SYSCALL, SEGTRAP, NMI, then NVI
gated by `F_NVIE` and VI gated by `F_VIE`.  `F_SEG_Z8001()` is zero on the
Z8002. -/
def Interrupt (s0 : Z8002State) : Z8002State :=
  let fcw := s0.fcw
  if s0.irq_req &&& Z8000_RESET ≠ 0 then
    let s := { s0 with irq_req := s0.irq_req &&& (Z8000_NVI ||| Z8000_VI) }
    let s := CHANGE_FCW s (RDMEM_W_prog s 2)
    { s with pc := get_reset_pc s }
  else if s0.irq_req &&& Z8000_EPU ≠ 0 then
    let s := CHANGE_FCW s0 (fcw ||| F_S_N)
    let s := PUSH_PC s
    let s := PUSHW s fcw
    let s := PUSHW s (s.op 0)
    let s := { s with irq_req := s.irq_req &&& (0xFFFFFFFF ^^^ Z8000_EPU) }
    let s := CHANGE_FCW s (GET_FCW s (vecEPU s))
    { s with pc := GET_PC s (vecEPU s) }
  else if s0.irq_req &&& Z8000_TRAP ≠ 0 then
    let s := CHANGE_FCW s0 (fcw ||| F_S_N)
    let s := PUSH_PC s
    let s := PUSHW s fcw
    let s := PUSHW s (s.op 0)
    let s := { s with irq_req := s.irq_req &&& (0xFFFFFFFF ^^^ Z8000_TRAP) }
    let s := CHANGE_FCW s (GET_FCW s (vecTRAP s))
    { s with pc := GET_PC s (vecTRAP s) }
  else if s0.irq_req &&& Z8000_SYSCALL ≠ 0 then
    let s := CHANGE_FCW s0 (fcw ||| F_S_N)
    let s := PUSH_PC s
    let s := PUSHW s fcw
    let s := PUSHW s (s.op 0)
    let s := { s with irq_req := s.irq_req &&& (0xFFFFFFFF ^^^ Z8000_SYSCALL) }
    let s := CHANGE_FCW s (GET_FCW s (vecSYSCALL s))
    { s with pc := GET_PC s (vecSYSCALL s) }
  else if s0.irq_req &&& Z8000_SEGTRAP ≠ 0 then
    let s := { s0 with irq_vec := 0 }
    let s := CHANGE_FCW s (fcw ||| F_S_N)
    let s := PUSH_PC s
    let s := PUSHW s fcw
    let s := PUSHW s s.irq_vec
    let s := { s with irq_req := s.irq_req &&& (0xFFFFFFFF ^^^ Z8000_SEGTRAP) }
    let s := CHANGE_FCW s (GET_FCW s (vecSEGTRAP s))
    { s with pc := GET_PC s (vecSEGTRAP s) }
  else if s0.irq_req &&& Z8000_NMI ≠ 0 then
    let s := { s0 with irq_vec := 0, halt := false }
    let s := CHANGE_FCW s (fcw ||| F_S_N)
    let s := PUSH_PC s
    let s := PUSHW s fcw
    let s := PUSHW s s.irq_vec
    let s := { s with pc := RDMEM_W_prog s (vecNMI s) }
    let s := { s with irq_req := s.irq_req &&& (0xFFFFFFFF ^^^ Z8000_NMI) }
    let s := CHANGE_FCW s (GET_FCW s (vecNMI s))
    { s with pc := GET_PC s (vecNMI s) }
  else if s0.irq_req &&& Z8000_NVI ≠ 0 ∧ s0.fcw &&& F_NVIE ≠ 0 then
    let s := { s0 with irq_vec := 0, halt := false }
    let s := CHANGE_FCW s (fcw ||| F_S_N)
    let s := PUSH_PC s
    let s := PUSHW s fcw
    let s := PUSHW s s.irq_vec
    let s := { s with pc := GET_PC s (vecNVI s) }
    let s := { s with irq_req := s.irq_req &&& (0xFFFFFFFF ^^^ Z8000_NVI) }
    CHANGE_FCW s (GET_FCW s (vecNVI s))
  else if s0.irq_req &&& Z8000_VI ≠ 0 ∧ s0.fcw &&& F_VIE ≠ 0 then
    let s := { s0 with irq_vec := 0, halt := false }
    let s := CHANGE_FCW s (fcw ||| F_S_N)
    let s := PUSH_PC s
    let s := PUSHW s fcw
    let s := PUSHW s s.irq_vec
    let s := { s with pc := read_irq_vector s }
    let s := { s with irq_req := s.irq_req &&& (0xFFFFFFFF ^^^ Z8000_VI) }
    CHANGE_FCW s (GET_FCW s (vecVI s))
  else
    s0

/-! ### Execution loop (z8002_device::step / z8002_device::run)

The dispatch table and the per-opcode handlers live in z8000tbl.hxx and
z8000ops.hxx, which are not in the tree.  Modelled from the spec (section
4.4): the dispatch of a fetched opcode word is a table lookup yielding a
cycle count and a handler; both are abstracted as functions of the opcode
carried in the machine.  Tracing (`m_trace` / `m_reg_trace`) only prints
and is omitted. -/

/-- A z8002_device together with its attachments: `hasProgram` / `hasIO`
model non-null `m_program_bus` / `m_io_bus`; `execCycles` and
`execHandler` are the dispatch table's cycle count and handler per opcode
word (modelled from the spec, z8000tbl.hxx / z8000ops.hxx being absent). -/
structure Machine where
  cpu : Z8002State
  hasProgram : Bool
  hasIO : Bool
  execCycles : Nat → Nat
  execHandler : Nat → Z8002State → Z8002State

/-- z8002_device::step: bail out with -1 when a bus is missing; service a
pending interrupt; return 0 when halted; otherwise latch `ppc`, fetch the
opcode, dispatch, run the handler, clear `op_valid` and return the entry's
cycle count (`step` does not touch `icount`). -/
def step (m : Machine) : Machine × Int :=
  if m.hasProgram = false ∨ m.hasIO = false then (m, -1)
  else
    let s := m.cpu
    let s := if s.irq_req ≠ 0 then Interrupt s else s
    if s.halt then ({ m with cpu := s }, 0)
    else
      let s := { s with ppc := s.pc }
      let fetched := RDOP s
      let s := { fetched.1 with op := opSet fetched.1.op 0 fetched.2, op_valid := 1 }
      let cyc := m.execCycles fetched.2
      let s := { s with total_cycles := s.total_cycles + cyc }
      let s := m.execHandler fetched.2 s
      let s := { s with op_valid := 0 }
      ({ m with cpu := s }, (cyc : Int))

/-- Body of the do-while loop of z8002_device::run: service a pending
interrupt, latch `ppc`, then either zero `icount` when halted or fetch,
dispatch, charge the entry's cycles against `icount` and `total_cycles`,
run the handler and clear `op_valid`. -/
def runBody (m : Machine) : Machine :=
  let s := m.cpu
  let s := if s.irq_req ≠ 0 then Interrupt s else s
  let s := { s with ppc := s.pc }
  let s :=
    if s.halt then { s with icount := 0 }
    else
      let fetched := RDOP s
      let s := { fetched.1 with op := opSet fetched.1.op 0 fetched.2, op_valid := 1 }
      let cyc := m.execCycles fetched.2
      let s := { s with icount := s.icount - cyc, total_cycles := s.total_cycles + cyc }
      let s := m.execHandler fetched.2 s
      { s with op_valid := 0 }
  { m with cpu := s }

/-- The do-while loop of z8002_device::run: execute the body, then repeat
while `icount > 0` and not halted.  The loop need not terminate in the
source, so the iteration count is bounded by explicit fuel. -/
def runLoop : Nat → Machine → Machine
  | 0, m => m
  | fuel + 1, m =>
    let m2 := runBody m
    if 0 < m2.cpu.icount ∧ m2.cpu.halt = false then runLoop fuel m2 else m2

/-- z8002_device::run: return unchanged (with a diagnostic) when the
program or I/O bus is missing; otherwise set `icount` to `max_cycles`
(1000000 when negative) and enter the do-while loop. -/
def run (m : Machine) (max_cycles : Int) (fuel : Nat) : Machine :=
  if m.hasProgram = false then m
  else if m.hasIO = false then m
  else
    runLoop fuel
      { m with cpu :=
          { m.cpu with icount := if max_cycles < 0 then 1000000 else max_cycles } }

/-! ### Spec-side notions used to state the interrupt claims -/

/-- The interrupt/trap causes of spec section 4.6. -/
inductive Cause
  | RESET
  | EPU
  | TRAP
  | SYSCALL
  | SEGTRAP
  | NMI
  | NVI
  | VI
deriving DecidableEq, Fintype

/-- The `irq_req` bit latched for each cause. -/
def causeBit : Cause → Nat
  | Cause.RESET => Z8000_RESET
  | Cause.EPU => Z8000_EPU
  | Cause.TRAP => Z8000_TRAP
  | Cause.SYSCALL => Z8000_SYSCALL
  | Cause.SEGTRAP => Z8000_SEGTRAP
  | Cause.NMI => Z8000_NMI
  | Cause.NVI => Z8000_NVI
  | Cause.VI => Z8000_VI

/-- Numeric priority of each cause, spec section 4.6, highest first:
RESET > EPU > TRAP > SYSCALL > SEGTRAP > NMI > NVI > VI. -/
def priority : Cause → Nat
  | Cause.RESET => 7
  | Cause.EPU => 6
  | Cause.TRAP => 5
  | Cause.SYSCALL => 4
  | Cause.SEGTRAP => 3
  | Cause.NMI => 2
  | Cause.NVI => 1
  | Cause.VI => 0

/-- A cause is eligible for service when its `irq_req` bit is pending and,
for NVI and VI, the corresponding FCW enable bit is set (spec section
4.6). -/
def eligible (s : Z8002State) (c : Cause) : Prop :=
  s.irq_req &&& causeBit c ≠ 0 ∧
    (c = Cause.NVI → s.fcw &&& F_NVIE ≠ 0) ∧
    (c = Cause.VI → s.fcw &&& F_VIE ≠ 0)

instance (s : Z8002State) (c : Cause) : Decidable (eligible s c) := by
  unfold eligible
  infer_instance

/-- Spec-side statement of even parity: the byte has an even number of one
bits. -/
def evenParity (b : Nat) : Prop :=
  ((List.range 8).countP fun i => b.testBit i) % 2 = 0

instance (b : Nat) : Decidable (evenParity b) := by
  unfold evenParity
  infer_instance

/-! ### Concrete states used by witnesses and counterexamples -/

/-- A plain CPU state: everything cleared except a few distinctive
addresses. -/
def testState : Z8002State where
  ppc := 0
  pc := 0x100
  psapseg := 0
  psapoff := 0x200
  fcw := 0
  refresh := 0
  nspseg := 0
  nspoff := 0x3000
  irq_req := 0
  irq_vec := 0
  op := fun _ => 0
  op_valid := 0
  nmi_state := 0
  irq_state0 := 0
  irq_state1 := 0
  mi := 0
  halt := false
  icount := 0
  total_cycles := 0
  regs := fun _ => 0x4000
  progR := fun _ => 0
  stackW := []

/-- A state with a pending privileged-instruction trap and a pending (and
enabled) vectored interrupt: TRAP is the highest-priority eligible
cause. -/
def trapPendingState : Z8002State :=
  { testState with irq_req := Z8000_TRAP ||| Z8000_VI, fcw := F_VIE }

/-- A halted state with a pending privileged-instruction trap. -/
def haltTrapState : Z8002State :=
  { testState with irq_req := Z8000_TRAP, halt := true }

/-- A halted state with a pending non-maskable interrupt. -/
def nmiPendingState : Z8002State :=
  { testState with irq_req := Z8000_NMI, halt := true }

/-- A state about to fetch a long segmented address operand: the word at
`pc` has bit 15 set. -/
def segProgState : Z8002State :=
  { testState with progR := fun a => if a = 0x100 then 0x8123 else 0x4444 }

/-- A fully attached machine whose opcode table charges three cycles and
whose handlers do nothing. -/
def testMachine : Machine where
  cpu := testState
  hasProgram := true
  hasIO := true
  execCycles := fun _ => 3
  execHandler := fun _ st => st

/-- An attached machine with the refresh-enable bit (bit 15 of `refresh`)
set. -/
def refreshMachine : Machine :=
  { testMachine with cpu := { testState with refresh := 0x8000 } }

/-- A machine with no program memory attached. -/
def detachedMachine : Machine :=
  { testMachine with hasProgram := false }

/-- A one-byte memory region whose backing store reveals the offset that
was read. -/
def tinyRegion : MemoryRegion where
  size := 1
  data := fun j => j

/-- A 64 KiB region with two marked bytes at offsets 0x10 and 0x11. -/
def bytesRegion : MemoryRegion where
  size := 65536
  data := fun j => if j = 0x10 then 0xAB else if j = 0x11 then 0xCD else 0

/-! ### Bit-arithmetic toolkit -/

theorem or_and_self (a b : Nat) : (a ||| b) &&& b = b := by
  apply Nat.eq_of_testBit_eq
  intro i
  simp only [Nat.testBit_and, Nat.testBit_or]
  cases b.testBit i <;> simp

theorem shl_and_shl (x y k : Nat) : (x <<< k) &&& (y <<< k) = (x &&& y) <<< k := by
  apply Nat.eq_of_testBit_eq
  intro i
  simp only [Nat.testBit_and, Nat.testBit_shiftLeft]
  by_cases h : k ≤ i <;> simp [h]

theorem and_shl_eq_zero {x : Nat} (k : Nat) (hx : x < 2 ^ k) (y : Nat) :
    x &&& (y <<< k) = 0 := by
  apply Nat.eq_of_testBit_eq
  intro i
  simp only [Nat.testBit_and, Nat.testBit_shiftLeft, Nat.zero_testBit]
  by_cases h : k ≤ i
  · have hxi : x.testBit i = false :=
      Nat.testBit_lt_two_pow (lt_of_lt_of_le hx (Nat.pow_le_pow_right (by norm_num) h))
    simp [hxi]
  · simp [h]

theorem shl8_or_eq_add (a : Nat) {b : Nat} (hb : b < 256) :
    (a <<< 8) ||| b = 256 * a + b := by
  have h1 : a <<< 8 = 2 ^ 8 * a := by
    rw [Nat.shiftLeft_eq, Nat.mul_comm]
  have h2 : 2 ^ 8 * a + b = 2 ^ 8 * a ||| b :=
    Nat.mul_add_lt_is_or (show b < 2 ^ 8 by omega) a
  rw [h1, ← h2]
  norm_num

theorem hi_lo_and_ff {a b : Nat} (hb : b < 256) :
    ((a <<< 8) ||| b) &&& 0xFF = b := by
  have h255 : (0xFF : Nat) = 2 ^ 8 - 1 := by norm_num
  rw [shl8_or_eq_add a hb, h255, Nat.and_pow_two_sub_one_eq_mod]
  omega

theorem hi_lo_and_ff00 {a b : Nat} (ha : a < 256) (hb : b < 256) :
    ((a <<< 8) ||| b) &&& 0xFF00 = a <<< 8 := by
  have hm : (0xFF00 : Nat) = 255 <<< 8 := by
    rw [Nat.shiftLeft_eq]
  rw [hm, Nat.and_distrib_right, shl_and_shl, and_shl_eq_zero 8 (by norm_num [hb]) 255,
    Nat.or_zero]
  congr 1
  have h255 : (255 : Nat) = 2 ^ 8 - 1 := by norm_num
  rw [h255, Nat.and_pow_two_sub_one_eq_mod]
  omega

theorem hi_lo_shr8_and_ff {a b : Nat} (ha : a < 256) (hb : b < 256) :
    (((a <<< 8) ||| b) >>> 8) &&& 0xFF = a := by
  rw [shl8_or_eq_add a hb, Nat.shiftRight_eq_div_pow]
  have hdiv : (256 * a + b) / 2 ^ 8 = a := by
    have h256 : (2 : Nat) ^ 8 = 256 := by norm_num
    rw [h256]
    omega
  rw [hdiv]
  have h255 : (0xFF : Nat) = 2 ^ 8 - 1 := by norm_num
  rw [h255, Nat.and_pow_two_sub_one_eq_mod]
  omega

theorem dup_and_ff {b : Nat} (hb : b < 256) : (b ||| (b <<< 8)) &&& 0xFF = b := by
  rw [Nat.or_comm]
  exact hi_lo_and_ff hb

theorem dup_and_ff00 {b : Nat} (hb : b < 256) :
    (b ||| (b <<< 8)) &&& 0xFF00 = b <<< 8 := by
  rw [Nat.or_comm]
  exact hi_lo_and_ff00 hb hb

theorem wordIndex_idem (S x : Nat) : wordIndex S (wordIndex S x) = wordIndex S x := by
  unfold wordIndex
  rw [Nat.and_assoc, Nat.and_self]

theorem and_one_eq_mod_two (x : Nat) : x &&& 1 = x % 2 := by
  have h : (1 : Nat) = 2 ^ 1 - 1 := by norm_num
  rw [h, Nat.and_pow_two_sub_one_eq_mod]

/-! ### Claim C10 — MemoryRegion accesses stay within the backing array -/

/-- C10 (counterexample): for the power-of-two size 1, a word read accesses
the byte at offset `wordIndex + 1 = 1`, which is not within the one-byte
backing array; the out-of-bounds byte even shows up in the result. -/
theorem read_word_oob_at_size_one :
    wordIndex tinyRegion.size 0 + 1 = 1 ∧
      ¬ (wordIndex tinyRegion.size 0 + 1 < tinyRegion.size) ∧
      read_word tinyRegion 0 = 1 := by
  decide

/-- C10 (amended: power-of-two size at least 2): every byte access lands on
`addr % size`, inside the array; every word access lands on an even offset
strictly below `size - 1`, so both accessed bytes are inside the array. -/
theorem region_accesses_in_bounds (k addr : Nat) (hk : 1 ≤ k) :
    byteIndex (2 ^ k) addr = addr % 2 ^ k ∧
      byteIndex (2 ^ k) addr < 2 ^ k ∧
      wordIndex (2 ^ k) addr % 2 = 0 ∧
      wordIndex (2 ^ k) addr < 2 ^ k ∧
      wordIndex (2 ^ k) addr + 1 < 2 ^ k := by
  have hpos : 0 < 2 ^ k := Nat.pos_pow_of_pos k (by norm_num)
  have hbyte : byteIndex (2 ^ k) addr = addr % 2 ^ k := by
    unfold byteIndex
    rw [Nat.and_pow_two_sub_one_eq_mod]
  have heven : wordIndex (2 ^ k) addr % 2 = 0 := by
    unfold wordIndex
    have hbit : (addr &&& ((2 ^ k - 1) &&& 0xFFFFFFFFFFFFFFFE)).testBit 0 = false := by
      simp only [Nat.testBit_and]
      have : (0xFFFFFFFFFFFFFFFE : Nat).testBit 0 = false := by decide
      simp [this]
    simp only [Nat.testBit_zero, decide_eq_false_iff_not] at hbit
    omega
  have hlt : wordIndex (2 ^ k) addr < 2 ^ k := by
    unfold wordIndex
    apply Nat.and_lt_two_pow
    calc (2 ^ k - 1) &&& 0xFFFFFFFFFFFFFFFE ≤ 2 ^ k - 1 := Nat.and_le_left
      _ < 2 ^ k := by omega
  have h2k : 2 ^ k % 2 = 0 := by
    have : (2 : Nat) ∣ 2 ^ k := dvd_pow_self 2 (by omega)
    omega
  refine ⟨hbyte, ?_, heven, hlt, ?_⟩
  · rw [hbyte]
    exact Nat.mod_lt addr hpos
  · omega

/-- C10 (witness): the amended bounds theorem instantiated at a 64 KiB
region and the address 0x12345. -/
theorem region_accesses_in_bounds_witness :
    (1 ≤ 16) ∧
      (byteIndex (2 ^ 16) 74565 = 74565 % 2 ^ 16 ∧
        byteIndex (2 ^ 16) 74565 < 2 ^ 16 ∧
        wordIndex (2 ^ 16) 74565 % 2 = 0 ∧
        wordIndex (2 ^ 16) 74565 < 2 ^ 16 ∧
        wordIndex (2 ^ 16) 74565 + 1 < 2 ^ 16) :=
  ⟨by decide, region_accesses_in_bounds 16 74565 (by decide)⟩

/-! ### Claim C5 — the zero/sign/parity table -/

set_option maxRecDepth 8192 in
/-- C5: for every byte value, the table entry has `F_Z` set iff the byte is
zero, `F_S` set iff bit 7 is set, `F_PV` set iff the byte has an even
number of one bits, and no bits outside `F_Z ||| F_S ||| F_PV`. -/
theorem zsp_table_correct (b : Nat) (hb : b < 256) :
    ((z8000_zsp b &&& F_Z ≠ 0) ↔ b = 0) ∧
      ((z8000_zsp b &&& F_S ≠ 0) ↔ b.testBit 7 = true) ∧
      ((z8000_zsp b &&& F_PV ≠ 0) ↔ evenParity b) ∧
      z8000_zsp b &&& (F_Z ||| F_S ||| F_PV) = z8000_zsp b := by
  revert hb
  revert b
  decide

/-- C5 (witness): the table theorem at byte 0xA5 (four one bits: even
parity, sign bit set, not zero). -/
theorem zsp_table_correct_witness :
    (165 < 256) ∧
      (((z8000_zsp 165 &&& F_Z ≠ 0) ↔ 165 = 0) ∧
        ((z8000_zsp 165 &&& F_S ≠ 0) ↔ Nat.testBit 165 7 = true) ∧
        ((z8000_zsp 165 &&& F_PV ≠ 0) ↔ evenParity 165) ∧
        z8000_zsp 165 &&& (F_Z ||| F_S ||| F_PV) = z8000_zsp 165) :=
  ⟨by decide, zsp_table_correct 165 (by decide)⟩

/-! ### Claim C6 — get_operand is idempotent within an instruction -/

/-- C6: when the `op_valid` bit for slot `n` is clear, `get_operand` fetches
the word at `pc` from the program bus, advances `pc` by exactly two, stores
the word in `op[n]`, sets the bit and returns the word; a second call with
the same `n` returns the same value and leaves the state unchanged. -/
theorem get_operand_idempotent (s : Z8002State) (n : Nat)
    (h : s.op_valid &&& (1 <<< n) = 0) :
    (get_operand s n).2 = busReadW s.progR s.pc ∧
      (get_operand s n).1.pc = (s.pc + 2) % 4294967296 ∧
      (get_operand s n).1.op n = (get_operand s n).2 ∧
      (get_operand s n).1.op_valid = s.op_valid ||| (1 <<< n) ∧
      (∀ j, j ≠ n → (get_operand s n).1.op j = s.op j) ∧
      get_operand (get_operand s n).1 n = ((get_operand s n).1, (get_operand s n).2) := by
  have hbit : (s.op_valid ||| (1 <<< n)) &&& (1 <<< n) = 1 <<< n := or_and_self _ _
  have hne : (1 : Nat) <<< n ≠ 0 := by
    rw [Nat.one_shiftLeft]
    exact Nat.pos_iff_ne_zero.mp (Nat.pos_pow_of_pos n (by norm_num))
  refine ⟨?_, ?_, ?_, ?_, ?_, ?_⟩
  · simp [get_operand, h]
  · simp [get_operand, h]
  · simp [get_operand, h, opSet]
  · simp [get_operand, h]
  · intro j hj
    simp [get_operand, h, opSet, hj]
  · simp [get_operand, h, hbit, hne, opSet]

/-- C6 (witness): the idempotence theorem at the cleared test state and
slot 1. -/
theorem get_operand_idempotent_witness :
    (testState.op_valid &&& (1 <<< 1) = 0) ∧
      ((get_operand testState 1).2 = busReadW testState.progR testState.pc ∧
        (get_operand testState 1).1.pc = (testState.pc + 2) % 4294967296 ∧
        (get_operand testState 1).1.op 1 = (get_operand testState 1).2 ∧
        (get_operand testState 1).1.op_valid = testState.op_valid ||| (1 <<< 1) ∧
        (∀ j, j ≠ 1 → (get_operand testState 1).1.op j = testState.op j) ∧
        get_operand (get_operand testState 1).1 1 =
          ((get_operand testState 1).1, (get_operand testState 1).2)) :=
  ⟨by decide, get_operand_idempotent testState 1 (by decide)⟩

/-! ### Claim C3 — segmented vs non-segmented address-operand decoding -/

/-- C3: on a miss, `get_addr_operand` in segmented mode reads one word; with
bit 15 set it consumes a second word and yields
`((w1 & 0x7f00) << 8) | w2`, advancing `pc` by four; with bit 15 clear it
yields `((w1 & 0x7f00) << 8) | (w1 & 0xff)`, advancing `pc` by two; in
non-segmented mode it yields the word itself, advancing `pc` by two. -/
theorem get_addr_operand_modes (s : Z8002State) (n : Nat)
    (h : s.op_valid &&& (1 <<< n) = 0) :
    (busReadW s.progR s.pc &&& 0x8000 ≠ 0 →
        (get_addr_operand true s n).2 =
            ((busReadW s.progR s.pc &&& 0x7f00) <<< 8) |||
              busReadW s.progR ((s.pc + 2) % 4294967296) ∧
          (get_addr_operand true s n).1.pc = (s.pc + 4) % 4294967296) ∧
      (busReadW s.progR s.pc &&& 0x8000 = 0 →
          (get_addr_operand true s n).2 =
              ((busReadW s.progR s.pc &&& 0x7f00) <<< 8) |||
                (busReadW s.progR s.pc &&& 0xff) ∧
            (get_addr_operand true s n).1.pc = (s.pc + 2) % 4294967296) ∧
      ((get_addr_operand false s n).2 = busReadW s.progR s.pc ∧
        (get_addr_operand false s n).1.pc = (s.pc + 2) % 4294967296) := by
  refine ⟨fun hb => ⟨?_, ?_⟩, fun hb => ⟨?_, ?_⟩, ⟨?_, ?_⟩⟩
  · simp [get_addr_operand, h, hb]
  · simp [get_addr_operand, h, hb]
  · simp [get_addr_operand, h, hb]
  · simp [get_addr_operand, h, hb]
  · simp [get_addr_operand, h]
  · simp [get_addr_operand, h]

/-- C3 (witness): the decoding theorem at a state whose next program word
is 0x8123 (bit 15 set) followed by 0x4444. -/
theorem get_addr_operand_modes_witness :
    (segProgState.op_valid &&& (1 <<< 0) = 0) ∧
      ((busReadW segProgState.progR segProgState.pc &&& 0x8000 ≠ 0 →
          (get_addr_operand true segProgState 0).2 =
              ((busReadW segProgState.progR segProgState.pc &&& 0x7f00) <<< 8) |||
                busReadW segProgState.progR ((segProgState.pc + 2) % 4294967296) ∧
            (get_addr_operand true segProgState 0).1.pc =
              (segProgState.pc + 4) % 4294967296) ∧
        (busReadW segProgState.progR segProgState.pc &&& 0x8000 = 0 →
            (get_addr_operand true segProgState 0).2 =
                ((busReadW segProgState.progR segProgState.pc &&& 0x7f00) <<< 8) |||
                  (busReadW segProgState.progR segProgState.pc &&& 0xff) ∧
              (get_addr_operand true segProgState 0).1.pc =
                (segProgState.pc + 2) % 4294967296) ∧
        ((get_addr_operand false segProgState 0).2 =
            busReadW segProgState.progR segProgState.pc ∧
          (get_addr_operand false segProgState 0).1.pc =
            (segProgState.pc + 2) % 4294967296)) :=
  ⟨by decide, get_addr_operand_modes segProgState 0 (by decide)⟩

/-! ### Claim C7 — run and step without attached buses -/

/-- C7: when the program bus or the I/O bus is not attached, `run` returns
the machine unchanged (every CPU state component included) and `step`
returns the machine unchanged together with -1. -/
theorem unattached_buses_noop (m : Machine) (c : Int) (fuel : Nat)
    (h : m.hasProgram = false ∨ m.hasIO = false) :
    run m c fuel = m ∧ step m = (m, -1) := by
  constructor
  · unfold run
    rcases h with h | h
    · simp [h]
    · by_cases hp : m.hasProgram = false <;> simp [hp, h]
  · unfold step
    rw [if_pos h]

/-- C7 (witness): the no-op theorem at a machine with no program memory. -/
theorem unattached_buses_noop_witness :
    (detachedMachine.hasProgram = false ∨ detachedMachine.hasIO = false) ∧
      (run detachedMachine 5 9 = detachedMachine ∧
        step detachedMachine = (detachedMachine, -1)) :=
  ⟨by decide, unattached_buses_noop detachedMachine 5 9 (by decide)⟩

/-! ### Field-preservation lemmas for the interrupt-unit helpers -/

@[simp] theorem WRMEM_W_stack_irq_req (s : Z8002State) (a v : Nat) :
    (WRMEM_W_stack s a v).irq_req = s.irq_req := rfl

@[simp] theorem WRMEM_W_stack_halt (s : Z8002State) (a v : Nat) :
    (WRMEM_W_stack s a v).halt = s.halt := rfl

@[simp] theorem WRMEM_W_stack_refresh (s : Z8002State) (a v : Nat) :
    (WRMEM_W_stack s a v).refresh = s.refresh := rfl

@[simp] theorem WRMEM_W_stack_icount (s : Z8002State) (a v : Nat) :
    (WRMEM_W_stack s a v).icount = s.icount := rfl

@[simp] theorem PUSHW_irq_req (s : Z8002State) (v : Nat) :
    (PUSHW s v).irq_req = s.irq_req := rfl

@[simp] theorem PUSHW_halt (s : Z8002State) (v : Nat) :
    (PUSHW s v).halt = s.halt := rfl

@[simp] theorem PUSHW_refresh (s : Z8002State) (v : Nat) :
    (PUSHW s v).refresh = s.refresh := rfl

@[simp] theorem PUSHW_icount (s : Z8002State) (v : Nat) :
    (PUSHW s v).icount = s.icount := rfl

@[simp] theorem PUSH_PC_irq_req (s : Z8002State) :
    (PUSH_PC s).irq_req = s.irq_req := rfl

@[simp] theorem PUSH_PC_halt (s : Z8002State) :
    (PUSH_PC s).halt = s.halt := rfl

@[simp] theorem PUSH_PC_refresh (s : Z8002State) :
    (PUSH_PC s).refresh = s.refresh := rfl

@[simp] theorem PUSH_PC_icount (s : Z8002State) :
    (PUSH_PC s).icount = s.icount := rfl

@[simp] theorem CHANGE_FCW_irq_req (s : Z8002State) (f : Nat) :
    (CHANGE_FCW s f).irq_req = s.irq_req := by
  unfold CHANGE_FCW
  dsimp only
  split <;> rfl

@[simp] theorem CHANGE_FCW_halt (s : Z8002State) (f : Nat) :
    (CHANGE_FCW s f).halt = s.halt := by
  unfold CHANGE_FCW
  dsimp only
  split <;> rfl

@[simp] theorem CHANGE_FCW_refresh (s : Z8002State) (f : Nat) :
    (CHANGE_FCW s f).refresh = s.refresh := by
  unfold CHANGE_FCW
  dsimp only
  split <;> rfl

@[simp] theorem CHANGE_FCW_icount (s : Z8002State) (f : Nat) :
    (CHANGE_FCW s f).icount = s.icount := by
  unfold CHANGE_FCW
  dsimp only
  split <;> rfl

theorem Interrupt_refresh (s : Z8002State) : (Interrupt s).refresh = s.refresh := by
  unfold Interrupt
  dsimp only
  split_ifs <;>
    simp only [CHANGE_FCW_refresh, PUSHW_refresh, PUSH_PC_refresh, WRMEM_W_stack_refresh]

theorem Interrupt_icount (s : Z8002State) : (Interrupt s).icount = s.icount := by
  unfold Interrupt
  dsimp only
  split_ifs <;>
    simp only [CHANGE_FCW_icount, PUSHW_icount, PUSH_PC_icount, WRMEM_W_stack_icount]

/-! ### Eligibility characterizations -/

theorem not_eligible_nongated {s : Z8002State} (c : Cause) (hn1 : c ≠ Cause.NVI)
    (hn2 : c ≠ Cause.VI) (h : ¬ eligible s c) : s.irq_req &&& causeBit c = 0 := by
  by_contra hb
  exact h ⟨hb, fun he => absurd he hn1, fun he => absurd he hn2⟩

theorem eligible_NVI_iff (s : Z8002State) :
    eligible s Cause.NVI ↔ (s.irq_req &&& Z8000_NVI ≠ 0 ∧ s.fcw &&& F_NVIE ≠ 0) := by
  unfold eligible
  constructor
  · rintro ⟨h1, h2, h3⟩
    exact ⟨h1, h2 rfl⟩
  · rintro ⟨h1, h2⟩
    exact ⟨h1, fun _ => h2, fun he => absurd he (by decide)⟩

theorem eligible_VI_iff (s : Z8002State) :
    eligible s Cause.VI ↔ (s.irq_req &&& Z8000_VI ≠ 0 ∧ s.fcw &&& F_VIE ≠ 0) := by
  unfold eligible
  constructor
  · rintro ⟨h1, h2, h3⟩
    exact ⟨h1, h3 rfl⟩
  · rintro ⟨h1, h2⟩
    exact ⟨h1, fun he => absurd he (by decide), fun _ => h2⟩

/-! ### Per-branch effect lemmas for Interrupt -/

theorem Interrupt_RESET_effects (s : Z8002State)
    (hR : s.irq_req &&& Z8000_RESET ≠ 0) :
    (Interrupt s).irq_req = s.irq_req &&& (Z8000_NVI ||| Z8000_VI) ∧
      (Interrupt s).halt = s.halt := by
  unfold Interrupt
  simp [hR]

theorem Interrupt_EPU_effects (s : Z8002State)
    (hR : s.irq_req &&& Z8000_RESET = 0) (hE : s.irq_req &&& Z8000_EPU ≠ 0) :
    (Interrupt s).irq_req = s.irq_req &&& (0xFFFFFFFF ^^^ Z8000_EPU) ∧
      (Interrupt s).halt = s.halt := by
  unfold Interrupt
  simp [hR, hE]

theorem Interrupt_TRAP_effects (s : Z8002State)
    (hR : s.irq_req &&& Z8000_RESET = 0) (hE : s.irq_req &&& Z8000_EPU = 0)
    (hT : s.irq_req &&& Z8000_TRAP ≠ 0) :
    (Interrupt s).irq_req = s.irq_req &&& (0xFFFFFFFF ^^^ Z8000_TRAP) ∧
      (Interrupt s).halt = s.halt := by
  unfold Interrupt
  simp [hR, hE, hT]

theorem Interrupt_SYSCALL_effects (s : Z8002State)
    (hR : s.irq_req &&& Z8000_RESET = 0) (hE : s.irq_req &&& Z8000_EPU = 0)
    (hT : s.irq_req &&& Z8000_TRAP = 0) (hS : s.irq_req &&& Z8000_SYSCALL ≠ 0) :
    (Interrupt s).irq_req = s.irq_req &&& (0xFFFFFFFF ^^^ Z8000_SYSCALL) ∧
      (Interrupt s).halt = s.halt := by
  unfold Interrupt
  simp [hR, hE, hT, hS]

theorem Interrupt_SEGTRAP_effects (s : Z8002State)
    (hR : s.irq_req &&& Z8000_RESET = 0) (hE : s.irq_req &&& Z8000_EPU = 0)
    (hT : s.irq_req &&& Z8000_TRAP = 0) (hS : s.irq_req &&& Z8000_SYSCALL = 0)
    (hSg : s.irq_req &&& Z8000_SEGTRAP ≠ 0) :
    (Interrupt s).irq_req = s.irq_req &&& (0xFFFFFFFF ^^^ Z8000_SEGTRAP) ∧
      (Interrupt s).halt = s.halt := by
  unfold Interrupt
  simp [hR, hE, hT, hS, hSg]

theorem Interrupt_NMI_effects (s : Z8002State)
    (hR : s.irq_req &&& Z8000_RESET = 0) (hE : s.irq_req &&& Z8000_EPU = 0)
    (hT : s.irq_req &&& Z8000_TRAP = 0) (hS : s.irq_req &&& Z8000_SYSCALL = 0)
    (hSg : s.irq_req &&& Z8000_SEGTRAP = 0) (hN : s.irq_req &&& Z8000_NMI ≠ 0) :
    (Interrupt s).irq_req = s.irq_req &&& (0xFFFFFFFF ^^^ Z8000_NMI) ∧
      (Interrupt s).halt = false := by
  unfold Interrupt
  simp [hR, hE, hT, hS, hSg, hN]

theorem Interrupt_NVI_effects (s : Z8002State)
    (hR : s.irq_req &&& Z8000_RESET = 0) (hE : s.irq_req &&& Z8000_EPU = 0)
    (hT : s.irq_req &&& Z8000_TRAP = 0) (hS : s.irq_req &&& Z8000_SYSCALL = 0)
    (hSg : s.irq_req &&& Z8000_SEGTRAP = 0) (hN : s.irq_req &&& Z8000_NMI = 0)
    (hnv : s.irq_req &&& Z8000_NVI ≠ 0 ∧ s.fcw &&& F_NVIE ≠ 0) :
    (Interrupt s).irq_req = s.irq_req &&& (0xFFFFFFFF ^^^ Z8000_NVI) ∧
      (Interrupt s).halt = false := by
  unfold Interrupt
  simp [hR, hE, hT, hS, hSg, hN, hnv.1, hnv.2]

theorem Interrupt_VI_effects (s : Z8002State)
    (hR : s.irq_req &&& Z8000_RESET = 0) (hE : s.irq_req &&& Z8000_EPU = 0)
    (hT : s.irq_req &&& Z8000_TRAP = 0) (hS : s.irq_req &&& Z8000_SYSCALL = 0)
    (hSg : s.irq_req &&& Z8000_SEGTRAP = 0) (hN : s.irq_req &&& Z8000_NMI = 0)
    (hnv : ¬ (s.irq_req &&& Z8000_NVI ≠ 0 ∧ s.fcw &&& F_NVIE ≠ 0))
    (hvi : s.irq_req &&& Z8000_VI ≠ 0 ∧ s.fcw &&& F_VIE ≠ 0) :
    (Interrupt s).irq_req = s.irq_req &&& (0xFFFFFFFF ^^^ Z8000_VI) ∧
      (Interrupt s).halt = false := by
  have hnv2 : s.irq_req &&& Z8000_NVI = 0 ∨ s.fcw &&& F_NVIE = 0 := by
    by_contra hcon
    push_neg at hcon
    exact hnv ⟨hcon.1, hcon.2⟩
  unfold Interrupt
  rcases hnv2 with h1 | h1
  · simp [hR, hE, hT, hS, hSg, hN, h1, hvi.1, hvi.2]
  · simp [hR, hE, hT, hS, hSg, hN, h1, hvi.1, hvi.2]

theorem Interrupt_none_eligible (s : Z8002State)
    (h : ∀ c : Cause, ¬ eligible s c) : Interrupt s = s := by
  have hR : s.irq_req &&& Z8000_RESET = 0 :=
    not_eligible_nongated Cause.RESET (by decide) (by decide) (h Cause.RESET)
  have hE : s.irq_req &&& Z8000_EPU = 0 :=
    not_eligible_nongated Cause.EPU (by decide) (by decide) (h Cause.EPU)
  have hT : s.irq_req &&& Z8000_TRAP = 0 :=
    not_eligible_nongated Cause.TRAP (by decide) (by decide) (h Cause.TRAP)
  have hS : s.irq_req &&& Z8000_SYSCALL = 0 :=
    not_eligible_nongated Cause.SYSCALL (by decide) (by decide) (h Cause.SYSCALL)
  have hSg : s.irq_req &&& Z8000_SEGTRAP = 0 :=
    not_eligible_nongated Cause.SEGTRAP (by decide) (by decide) (h Cause.SEGTRAP)
  have hN : s.irq_req &&& Z8000_NMI = 0 :=
    not_eligible_nongated Cause.NMI (by decide) (by decide) (h Cause.NMI)
  have hnv : ¬ (s.irq_req &&& Z8000_NVI ≠ 0 ∧ s.fcw &&& F_NVIE ≠ 0) :=
    fun hn => h Cause.NVI ((eligible_NVI_iff s).mpr hn)
  have hvi : ¬ (s.irq_req &&& Z8000_VI ≠ 0 ∧ s.fcw &&& F_VIE ≠ 0) :=
    fun hv => h Cause.VI ((eligible_VI_iff s).mpr hv)
  have hnv2 : s.irq_req &&& Z8000_NVI = 0 ∨ s.fcw &&& F_NVIE = 0 := by
    by_contra hcon
    push_neg at hcon
    exact hnv ⟨hcon.1, hcon.2⟩
  have hvi2 : s.irq_req &&& Z8000_VI = 0 ∨ s.fcw &&& F_VIE = 0 := by
    by_contra hcon
    push_neg at hcon
    exact hvi ⟨hcon.1, hcon.2⟩
  unfold Interrupt
  rcases hnv2 with h1 | h1 <;> rcases hvi2 with h2 | h2 <;>
    simp [hR, hE, hT, hS, hSg, hN, h1, h2]

theorem and_mask_self_zero (x B : Nat) (hB : (0xFFFFFFFF ^^^ B) &&& B = 0) :
    (x &&& (0xFFFFFFFF ^^^ B)) &&& B = 0 := by
  rw [Nat.and_assoc, hB, Nat.and_zero]

/-! ### Claim C1 — highest-priority cause selection -/

/-- C1: when `irq_req` is non-zero and `c` is an eligible pending cause
with no eligible cause of higher priority (order RESET > EPU > TRAP >
SYSCALL > SEGTRAP > NMI > NVI > VI, with NVI gated by `NVIE` and VI by
`VIE`), `Interrupt` services exactly `c`: it clears exactly the bit of `c`
from `irq_req`, leaving every lower-priority pending cause latched, except
that servicing RESET clears all pending bits other than NVI and VI. -/
theorem interrupt_services_highest_priority (s : Z8002State) (c : Cause)
    (h0 : s.irq_req ≠ 0) (hc : eligible s c)
    (hmax : ∀ c2 : Cause, priority c < priority c2 → ¬ eligible s c2) :
    (Interrupt s).irq_req =
      if c = Cause.RESET then s.irq_req &&& (Z8000_NVI ||| Z8000_VI)
      else s.irq_req &&& (0xFFFFFFFF ^^^ causeBit c) := by
  cases c with
  | RESET =>
    simpa using (Interrupt_RESET_effects s hc.1).1
  | EPU =>
    have hR : s.irq_req &&& Z8000_RESET = 0 :=
      not_eligible_nongated Cause.RESET (by decide) (by decide) (hmax Cause.RESET (by decide))
    simpa [causeBit] using (Interrupt_EPU_effects s hR hc.1).1
  | TRAP =>
    have hR : s.irq_req &&& Z8000_RESET = 0 :=
      not_eligible_nongated Cause.RESET (by decide) (by decide) (hmax Cause.RESET (by decide))
    have hE : s.irq_req &&& Z8000_EPU = 0 :=
      not_eligible_nongated Cause.EPU (by decide) (by decide) (hmax Cause.EPU (by decide))
    simpa [causeBit] using (Interrupt_TRAP_effects s hR hE hc.1).1
  | SYSCALL =>
    have hR : s.irq_req &&& Z8000_RESET = 0 :=
      not_eligible_nongated Cause.RESET (by decide) (by decide) (hmax Cause.RESET (by decide))
    have hE : s.irq_req &&& Z8000_EPU = 0 :=
      not_eligible_nongated Cause.EPU (by decide) (by decide) (hmax Cause.EPU (by decide))
    have hT : s.irq_req &&& Z8000_TRAP = 0 :=
      not_eligible_nongated Cause.TRAP (by decide) (by decide) (hmax Cause.TRAP (by decide))
    simpa [causeBit] using (Interrupt_SYSCALL_effects s hR hE hT hc.1).1
  | SEGTRAP =>
    have hR : s.irq_req &&& Z8000_RESET = 0 :=
      not_eligible_nongated Cause.RESET (by decide) (by decide) (hmax Cause.RESET (by decide))
    have hE : s.irq_req &&& Z8000_EPU = 0 :=
      not_eligible_nongated Cause.EPU (by decide) (by decide) (hmax Cause.EPU (by decide))
    have hT : s.irq_req &&& Z8000_TRAP = 0 :=
      not_eligible_nongated Cause.TRAP (by decide) (by decide) (hmax Cause.TRAP (by decide))
    have hS : s.irq_req &&& Z8000_SYSCALL = 0 :=
      not_eligible_nongated Cause.SYSCALL (by decide) (by decide) (hmax Cause.SYSCALL (by decide))
    simpa [causeBit] using (Interrupt_SEGTRAP_effects s hR hE hT hS hc.1).1
  | NMI =>
    have hR : s.irq_req &&& Z8000_RESET = 0 :=
      not_eligible_nongated Cause.RESET (by decide) (by decide) (hmax Cause.RESET (by decide))
    have hE : s.irq_req &&& Z8000_EPU = 0 :=
      not_eligible_nongated Cause.EPU (by decide) (by decide) (hmax Cause.EPU (by decide))
    have hT : s.irq_req &&& Z8000_TRAP = 0 :=
      not_eligible_nongated Cause.TRAP (by decide) (by decide) (hmax Cause.TRAP (by decide))
    have hS : s.irq_req &&& Z8000_SYSCALL = 0 :=
      not_eligible_nongated Cause.SYSCALL (by decide) (by decide) (hmax Cause.SYSCALL (by decide))
    have hSg : s.irq_req &&& Z8000_SEGTRAP = 0 :=
      not_eligible_nongated Cause.SEGTRAP (by decide) (by decide) (hmax Cause.SEGTRAP (by decide))
    simpa [causeBit] using (Interrupt_NMI_effects s hR hE hT hS hSg hc.1).1
  | NVI =>
    have hR : s.irq_req &&& Z8000_RESET = 0 :=
      not_eligible_nongated Cause.RESET (by decide) (by decide) (hmax Cause.RESET (by decide))
    have hE : s.irq_req &&& Z8000_EPU = 0 :=
      not_eligible_nongated Cause.EPU (by decide) (by decide) (hmax Cause.EPU (by decide))
    have hT : s.irq_req &&& Z8000_TRAP = 0 :=
      not_eligible_nongated Cause.TRAP (by decide) (by decide) (hmax Cause.TRAP (by decide))
    have hS : s.irq_req &&& Z8000_SYSCALL = 0 :=
      not_eligible_nongated Cause.SYSCALL (by decide) (by decide) (hmax Cause.SYSCALL (by decide))
    have hSg : s.irq_req &&& Z8000_SEGTRAP = 0 :=
      not_eligible_nongated Cause.SEGTRAP (by decide) (by decide) (hmax Cause.SEGTRAP (by decide))
    have hN : s.irq_req &&& Z8000_NMI = 0 :=
      not_eligible_nongated Cause.NMI (by decide) (by decide) (hmax Cause.NMI (by decide))
    have hcnv := (eligible_NVI_iff s).mp hc
    simpa [causeBit] using (Interrupt_NVI_effects s hR hE hT hS hSg hN hcnv).1
  | VI =>
    have hR : s.irq_req &&& Z8000_RESET = 0 :=
      not_eligible_nongated Cause.RESET (by decide) (by decide) (hmax Cause.RESET (by decide))
    have hE : s.irq_req &&& Z8000_EPU = 0 :=
      not_eligible_nongated Cause.EPU (by decide) (by decide) (hmax Cause.EPU (by decide))
    have hT : s.irq_req &&& Z8000_TRAP = 0 :=
      not_eligible_nongated Cause.TRAP (by decide) (by decide) (hmax Cause.TRAP (by decide))
    have hS : s.irq_req &&& Z8000_SYSCALL = 0 :=
      not_eligible_nongated Cause.SYSCALL (by decide) (by decide) (hmax Cause.SYSCALL (by decide))
    have hSg : s.irq_req &&& Z8000_SEGTRAP = 0 :=
      not_eligible_nongated Cause.SEGTRAP (by decide) (by decide) (hmax Cause.SEGTRAP (by decide))
    have hN : s.irq_req &&& Z8000_NMI = 0 :=
      not_eligible_nongated Cause.NMI (by decide) (by decide) (hmax Cause.NMI (by decide))
    have hnv : ¬ (s.irq_req &&& Z8000_NVI ≠ 0 ∧ s.fcw &&& F_NVIE ≠ 0) :=
      fun hn => hmax Cause.NVI (by decide) ((eligible_NVI_iff s).mpr hn)
    have hcvi := (eligible_VI_iff s).mp hc
    simpa [causeBit] using (Interrupt_VI_effects s hR hE hT hS hSg hN hnv hcvi).1

/-- C1 (witness): the selection theorem at a state with TRAP and VI both
pending and VI enabled: TRAP is serviced, the VI bit stays latched. -/
theorem interrupt_services_highest_priority_witness :
    (trapPendingState.irq_req ≠ 0) ∧ eligible trapPendingState Cause.TRAP ∧
      (∀ c2 : Cause, priority Cause.TRAP < priority c2 →
        ¬ eligible trapPendingState c2) ∧
      (Interrupt trapPendingState).irq_req =
        (if Cause.TRAP = Cause.RESET then
          trapPendingState.irq_req &&& (Z8000_NVI ||| Z8000_VI)
        else trapPendingState.irq_req &&& (0xFFFFFFFF ^^^ causeBit Cause.TRAP)) :=
  ⟨by decide, by decide, by intro c2 h2; revert h2; cases c2 <;> decide,
    interrupt_services_highest_priority trapPendingState Cause.TRAP (by decide)
      (by decide) (by intro c2 h2; revert h2; cases c2 <;> decide)⟩

/-! ### Claim C2 — effects of servicing a non-RESET cause -/

/-- C2 (counterexample): a pending privileged-instruction trap serviced in
a halted state: the TRAP bit is pending before and cleared after (so the
cause was serviced), but the halt latch is still set afterwards, against
the claim that the halt latch is cleared for every non-RESET cause. -/
theorem interrupt_trap_leaves_halt_latched :
    haltTrapState.irq_req &&& Z8000_TRAP ≠ 0 ∧
      (Interrupt haltTrapState).irq_req &&& Z8000_TRAP = 0 ∧
      (Interrupt haltTrapState).halt = true := by
  decide

/-- C2 (amended): servicing a non-RESET cause clears that cause's pending
bit; the halt latch is cleared for the external interrupts NMI, NVI and VI,
and left unchanged for EPU, TRAP, SYSCALL and SEGTRAP. -/
theorem interrupt_nonreset_clears_pending (s : Z8002State) (c : Cause)
    (hne : c ≠ Cause.RESET) (hc : eligible s c)
    (hmax : ∀ c2 : Cause, priority c < priority c2 → ¬ eligible s c2) :
    (Interrupt s).irq_req &&& causeBit c = 0 ∧
      (Interrupt s).halt =
        (if c = Cause.NMI ∨ c = Cause.NVI ∨ c = Cause.VI then false else s.halt) := by
  cases c with
  | RESET => exact absurd rfl hne
  | EPU =>
    have hR : s.irq_req &&& Z8000_RESET = 0 :=
      not_eligible_nongated Cause.RESET (by decide) (by decide) (hmax Cause.RESET (by decide))
    obtain ⟨hirq, hhalt⟩ := Interrupt_EPU_effects s hR hc.1
    refine ⟨?_, by simpa using hhalt⟩
    rw [hirq]
    exact and_mask_self_zero s.irq_req Z8000_EPU (by decide)
  | TRAP =>
    have hR : s.irq_req &&& Z8000_RESET = 0 :=
      not_eligible_nongated Cause.RESET (by decide) (by decide) (hmax Cause.RESET (by decide))
    have hE : s.irq_req &&& Z8000_EPU = 0 :=
      not_eligible_nongated Cause.EPU (by decide) (by decide) (hmax Cause.EPU (by decide))
    obtain ⟨hirq, hhalt⟩ := Interrupt_TRAP_effects s hR hE hc.1
    refine ⟨?_, by simpa using hhalt⟩
    rw [hirq]
    exact and_mask_self_zero s.irq_req Z8000_TRAP (by decide)
  | SYSCALL =>
    have hR : s.irq_req &&& Z8000_RESET = 0 :=
      not_eligible_nongated Cause.RESET (by decide) (by decide) (hmax Cause.RESET (by decide))
    have hE : s.irq_req &&& Z8000_EPU = 0 :=
      not_eligible_nongated Cause.EPU (by decide) (by decide) (hmax Cause.EPU (by decide))
    have hT : s.irq_req &&& Z8000_TRAP = 0 :=
      not_eligible_nongated Cause.TRAP (by decide) (by decide) (hmax Cause.TRAP (by decide))
    obtain ⟨hirq, hhalt⟩ := Interrupt_SYSCALL_effects s hR hE hT hc.1
    refine ⟨?_, by simpa using hhalt⟩
    rw [hirq]
    exact and_mask_self_zero s.irq_req Z8000_SYSCALL (by decide)
  | SEGTRAP =>
    have hR : s.irq_req &&& Z8000_RESET = 0 :=
      not_eligible_nongated Cause.RESET (by decide) (by decide) (hmax Cause.RESET (by decide))
    have hE : s.irq_req &&& Z8000_EPU = 0 :=
      not_eligible_nongated Cause.EPU (by decide) (by decide) (hmax Cause.EPU (by decide))
    have hT : s.irq_req &&& Z8000_TRAP = 0 :=
      not_eligible_nongated Cause.TRAP (by decide) (by decide) (hmax Cause.TRAP (by decide))
    have hS : s.irq_req &&& Z8000_SYSCALL = 0 :=
      not_eligible_nongated Cause.SYSCALL (by decide) (by decide) (hmax Cause.SYSCALL (by decide))
    obtain ⟨hirq, hhalt⟩ := Interrupt_SEGTRAP_effects s hR hE hT hS hc.1
    refine ⟨?_, by simpa using hhalt⟩
    rw [hirq]
    exact and_mask_self_zero s.irq_req Z8000_SEGTRAP (by decide)
  | NMI =>
    have hR : s.irq_req &&& Z8000_RESET = 0 :=
      not_eligible_nongated Cause.RESET (by decide) (by decide) (hmax Cause.RESET (by decide))
    have hE : s.irq_req &&& Z8000_EPU = 0 :=
      not_eligible_nongated Cause.EPU (by decide) (by decide) (hmax Cause.EPU (by decide))
    have hT : s.irq_req &&& Z8000_TRAP = 0 :=
      not_eligible_nongated Cause.TRAP (by decide) (by decide) (hmax Cause.TRAP (by decide))
    have hS : s.irq_req &&& Z8000_SYSCALL = 0 :=
      not_eligible_nongated Cause.SYSCALL (by decide) (by decide) (hmax Cause.SYSCALL (by decide))
    have hSg : s.irq_req &&& Z8000_SEGTRAP = 0 :=
      not_eligible_nongated Cause.SEGTRAP (by decide) (by decide) (hmax Cause.SEGTRAP (by decide))
    obtain ⟨hirq, hhalt⟩ := Interrupt_NMI_effects s hR hE hT hS hSg hc.1
    refine ⟨?_, by simpa using hhalt⟩
    rw [hirq]
    exact and_mask_self_zero s.irq_req Z8000_NMI (by decide)
  | NVI =>
    have hR : s.irq_req &&& Z8000_RESET = 0 :=
      not_eligible_nongated Cause.RESET (by decide) (by decide) (hmax Cause.RESET (by decide))
    have hE : s.irq_req &&& Z8000_EPU = 0 :=
      not_eligible_nongated Cause.EPU (by decide) (by decide) (hmax Cause.EPU (by decide))
    have hT : s.irq_req &&& Z8000_TRAP = 0 :=
      not_eligible_nongated Cause.TRAP (by decide) (by decide) (hmax Cause.TRAP (by decide))
    have hS : s.irq_req &&& Z8000_SYSCALL = 0 :=
      not_eligible_nongated Cause.SYSCALL (by decide) (by decide) (hmax Cause.SYSCALL (by decide))
    have hSg : s.irq_req &&& Z8000_SEGTRAP = 0 :=
      not_eligible_nongated Cause.SEGTRAP (by decide) (by decide) (hmax Cause.SEGTRAP (by decide))
    have hN : s.irq_req &&& Z8000_NMI = 0 :=
      not_eligible_nongated Cause.NMI (by decide) (by decide) (hmax Cause.NMI (by decide))
    obtain ⟨hirq, hhalt⟩ :=
      Interrupt_NVI_effects s hR hE hT hS hSg hN ((eligible_NVI_iff s).mp hc)
    refine ⟨?_, by simpa using hhalt⟩
    rw [hirq]
    exact and_mask_self_zero s.irq_req Z8000_NVI (by decide)
  | VI =>
    have hR : s.irq_req &&& Z8000_RESET = 0 :=
      not_eligible_nongated Cause.RESET (by decide) (by decide) (hmax Cause.RESET (by decide))
    have hE : s.irq_req &&& Z8000_EPU = 0 :=
      not_eligible_nongated Cause.EPU (by decide) (by decide) (hmax Cause.EPU (by decide))
    have hT : s.irq_req &&& Z8000_TRAP = 0 :=
      not_eligible_nongated Cause.TRAP (by decide) (by decide) (hmax Cause.TRAP (by decide))
    have hS : s.irq_req &&& Z8000_SYSCALL = 0 :=
      not_eligible_nongated Cause.SYSCALL (by decide) (by decide) (hmax Cause.SYSCALL (by decide))
    have hSg : s.irq_req &&& Z8000_SEGTRAP = 0 :=
      not_eligible_nongated Cause.SEGTRAP (by decide) (by decide) (hmax Cause.SEGTRAP (by decide))
    have hN : s.irq_req &&& Z8000_NMI = 0 :=
      not_eligible_nongated Cause.NMI (by decide) (by decide) (hmax Cause.NMI (by decide))
    have hnv : ¬ (s.irq_req &&& Z8000_NVI ≠ 0 ∧ s.fcw &&& F_NVIE ≠ 0) :=
      fun hn => hmax Cause.NVI (by decide) ((eligible_NVI_iff s).mpr hn)
    obtain ⟨hirq, hhalt⟩ :=
      Interrupt_VI_effects s hR hE hT hS hSg hN hnv ((eligible_VI_iff s).mp hc)
    refine ⟨?_, by simpa using hhalt⟩
    rw [hirq]
    exact and_mask_self_zero s.irq_req Z8000_VI (by decide)

/-- C2 (witness): the amended theorem at a halted state with a pending
NMI: the NMI bit is cleared and the halt latch is released. -/
theorem interrupt_nonreset_clears_pending_witness :
    (Cause.NMI ≠ Cause.RESET) ∧ eligible nmiPendingState Cause.NMI ∧
      (∀ c2 : Cause, priority Cause.NMI < priority c2 →
        ¬ eligible nmiPendingState c2) ∧
      ((Interrupt nmiPendingState).irq_req &&& causeBit Cause.NMI = 0 ∧
        (Interrupt nmiPendingState).halt =
          (if Cause.NMI = Cause.NMI ∨ Cause.NMI = Cause.NVI ∨ Cause.NMI = Cause.VI
           then false else nmiPendingState.halt)) :=
  ⟨by decide, by decide, by intro c2 h2; revert h2; cases c2 <;> decide,
    interrupt_nonreset_clears_pending nmiPendingState Cause.NMI (by decide) (by decide)
      (by intro c2 h2; revert h2; cases c2 <;> decide)⟩

/-! ### Claim C8 — the refresh counter during a step -/

/-- C8 (counterexample): a machine with the refresh-enable bit set executes
a full non-halted step (the program counter advances), yet the refresh
register is unchanged instead of having its low 8 bits incremented. -/
theorem step_does_not_increment_refresh :
    refreshMachine.cpu.refresh = 0x8000 ∧
      refreshMachine.cpu.refresh &&& 0x8000 ≠ 0 ∧
      refreshMachine.cpu.halt = false ∧
      ((step refreshMachine).1).cpu.pc = 0x102 ∧
      ((step refreshMachine).1).cpu.refresh = 0x8000 := by
  decide

/-- C8 (amended): the fetch/dispatch path of `step` never touches the
refresh register; whenever every opcode handler preserves `refresh`, a
step preserves it, whatever the refresh-enable bit. -/
theorem step_fetch_preserves_refresh (m : Machine)
    (hh : ∀ w st, (m.execHandler w st).refresh = st.refresh) :
    ((step m).1).cpu.refresh = m.cpu.refresh := by
  unfold step
  dsimp only
  split_ifs <;> simp [RDOP, Interrupt_refresh, hh]

/-- C8 (witness): the amended theorem at the attached machine with
identity handlers. -/
theorem step_fetch_preserves_refresh_witness :
    (∀ w st, (testMachine.execHandler w st).refresh = st.refresh) ∧
      ((step testMachine).1).cpu.refresh = testMachine.cpu.refresh :=
  ⟨fun _ _ => rfl, step_fetch_preserves_refresh testMachine (fun _ _ => rfl)⟩

/-! ### Claim C9 — the cycle budget check of run -/

/-- C9 (counterexample): `run` with `max_cycles = 0` still executes one
instruction: the body of the do-while loop runs before `icount` is
checked, so the program counter advances and cycles are charged. -/
theorem run_zero_budget_executes_instruction :
    testMachine.cpu.pc = 0x100 ∧ testMachine.cpu.total_cycles = 0 ∧
      (run testMachine 0 5).cpu.pc = 0x102 ∧
      (run testMachine 0 5).cpu.total_cycles = 3 := by
  decide

theorem runBody_icount_nonpos (m : Machine) (h0 : m.cpu.icount ≤ 0)
    (hh : ∀ w st, (m.execHandler w st).icount ≤ st.icount) :
    (runBody m).cpu.icount ≤ 0 := by
  unfold runBody
  dsimp only
  split_ifs with h1 h2 h3
  · simp
  · refine le_trans (hh _ _) ?_
    dsimp only [RDOP]
    rw [Interrupt_icount]
    omega
  · simp
  · refine le_trans (hh _ _) ?_
    dsimp only [RDOP]
    omega

/-- C9 (amended): `run` checks `icount` at the bottom of each do-while
iteration, so with `max_cycles = 0` and handlers that never increase
`icount` the loop body executes exactly once before returning. -/
theorem run_zero_budget_one_iteration (m : Machine) (fuel : Nat)
    (hp : m.hasProgram = true) (hio : m.hasIO = true)
    (hh : ∀ w st, (m.execHandler w st).icount ≤ st.icount) :
    run m 0 (fuel + 1) = runBody { m with cpu := { m.cpu with icount := 0 } } := by
  unfold run
  simp only [hp, hio, Bool.true_eq_false, if_false]
  have hze : (if (0 : Int) < 0 then (1000000 : Int) else 0) = 0 := by norm_num
  rw [hze]
  unfold runLoop
  dsimp only
  split_ifs with hcond
  · exfalso
    obtain ⟨hgt, h2⟩ := hcond
    exact absurd hgt (Int.not_lt.mpr (runBody_icount_nonpos _ (by simp) hh))
  · rfl

/-- C9 (witness): the amended theorem at the attached test machine. -/
theorem run_zero_budget_one_iteration_witness :
    (testMachine.hasProgram = true) ∧ (testMachine.hasIO = true) ∧
      run testMachine 0 8 =
        runBody { testMachine with cpu := { testMachine.cpu with icount := 0 } } :=
  ⟨rfl, rfl,
    run_zero_budget_one_iteration testMachine 7 rfl rfl (fun _ _ => le_refl _)⟩

/-! ### Claim C4 — byte-write semantics of WRMEM_B over a MemoryRegion -/

@[simp] theorem write_word_masked_size (r : MemoryRegion) (a v m : Nat) :
    (write_word_masked r a v m).size = r.size := rfl

theorem wordIndex_even (S x : Nat) : wordIndex S x % 2 = 0 := by
  unfold wordIndex
  have hbit : (x &&& ((S - 1) &&& 0xFFFFFFFFFFFFFFFE)).testBit 0 = false := by
    simp only [Nat.testBit_and]
    have h64 : (0xFFFFFFFFFFFFFFFE : Nat).testBit 0 = false := by decide
    simp [h64]
  simp only [Nat.testBit_zero, decide_eq_false_iff_not] at hbit
  omega

theorem odd_sub_one_and_even_mask {x : Nat} (M : Nat) (hx : x % 2 = 1) (hM : M % 2 = 0) :
    x &&& M = (x - 1) &&& M := by
  apply Nat.eq_of_testBit_eq
  intro i
  cases i with
  | zero =>
    simp only [Nat.testBit_and, Nat.testBit_zero]
    have hMf : ¬ (M % 2 = 1) := by omega
    simp [hMf]
  | succ n =>
    simp only [Nat.testBit_succ, Nat.and_div_two]
    have hx2 : x / 2 = (x - 1) / 2 := by omega
    rw [hx2]

theorem dup16_lt (b : Nat) (hb : b < 256) : (b ||| (b <<< 8)) < 65536 := by
  have h1 : b <<< 8 = b * 256 := by
    rw [Nat.shiftLeft_eq]
  have h2 : b < 2 ^ 16 := by omega
  have h3 : b <<< 8 < 2 ^ 16 := by
    rw [h1]
    omega
  have := Nat.or_lt_two_pow h2 h3
  omega

theorem write_word_masked_lo (r : MemoryRegion) (A b : Nat) (hb : b < 256) :
    (write_word_masked r A (b ||| (b <<< 8)) 0x00ff).data (wordIndex r.size A) =
        r.data (wordIndex r.size A) % 256 ∧
      (write_word_masked r A (b ||| (b <<< 8)) 0x00ff).data (wordIndex r.size A + 1) = b ∧
      (∀ j, j ≠ wordIndex r.size A → j ≠ wordIndex r.size A + 1 →
        (write_word_masked r A (b ||| (b <<< 8)) 0x00ff).data j = r.data j) := by
  have hd0 : r.data (wordIndex r.size A) % 256 < 256 := Nat.mod_lt _ (by norm_num)
  have hd1 : r.data (wordIndex r.size A + 1) % 256 < 256 := Nat.mod_lt _ (by norm_num)
  have hxor : (0xFFFF : Nat) ^^^ (0x00ff % 65536) = 0xff00 := by decide
  have hval : ((b ||| (b <<< 8)) % 65536) &&& (0x00ff % 65536) = b := by
    rw [Nat.mod_eq_of_lt (dup16_lt b hb)]
    have h255 : (0x00ff : Nat) % 65536 = 0xFF := by norm_num
    rw [h255]
    exact dup_and_ff hb
  unfold write_word_masked
  dsimp only
  rw [hxor, hval]
  unfold read_word
  rw [wordIndex_idem]
  rw [hi_lo_and_ff00 hd0 hd1]
  refine ⟨?_, ?_, ?_⟩
  · simp only [if_pos rfl]
    exact hi_lo_shr8_and_ff hd0 hb
  · have hne : wordIndex r.size A + 1 ≠ wordIndex r.size A := by omega
    simp only [if_neg hne, if_pos rfl]
    exact hi_lo_and_ff hb
  · intro j hj1 hj2
    simp only [if_neg hj1, if_neg hj2]

theorem write_word_masked_hi (r : MemoryRegion) (A b : Nat) (hb : b < 256) :
    (write_word_masked r A (b ||| (b <<< 8)) 0xff00).data (wordIndex r.size A) = b ∧
      (write_word_masked r A (b ||| (b <<< 8)) 0xff00).data (wordIndex r.size A + 1) =
        r.data (wordIndex r.size A + 1) % 256 ∧
      (∀ j, j ≠ wordIndex r.size A → j ≠ wordIndex r.size A + 1 →
        (write_word_masked r A (b ||| (b <<< 8)) 0xff00).data j = r.data j) := by
  have hd0 : r.data (wordIndex r.size A) % 256 < 256 := Nat.mod_lt _ (by norm_num)
  have hd1 : r.data (wordIndex r.size A + 1) % 256 < 256 := Nat.mod_lt _ (by norm_num)
  have hxor : (0xFFFF : Nat) ^^^ (0xff00 % 65536) = 0x00ff := by decide
  have hval : ((b ||| (b <<< 8)) % 65536) &&& (0xff00 % 65536) = b <<< 8 := by
    rw [Nat.mod_eq_of_lt (dup16_lt b hb)]
    have h255 : (0xff00 : Nat) % 65536 = 0xFF00 := by norm_num
    rw [h255]
    exact dup_and_ff00 hb
  unfold write_word_masked
  dsimp only
  rw [hxor, hval]
  unfold read_word
  rw [wordIndex_idem]
  rw [hi_lo_and_ff hd1, Nat.or_comm]
  refine ⟨?_, ?_, ?_⟩
  · simp only [if_pos rfl]
    exact hi_lo_shr8_and_ff (by omega) hd1
  · have hne : wordIndex r.size A + 1 ≠ wordIndex r.size A := by omega
    simp only [if_neg hne, if_pos rfl]
    exact hi_lo_and_ff hd1
  · intro j hj1 hj2
    simp only [if_neg hj1, if_neg hj2]

theorem mod256_mod256 (x : Nat) : x % 256 % 256 = x % 256 :=
  Nat.mod_mod_of_dvd x dvd_rfl

/-- C4: a byte write via WRMEM_B to an odd address updates only the low
half of the enclosing aligned word (the high byte reads back unchanged); at
an even address it updates only the high half (the low byte reads back
unchanged); every other byte of the region is untouched; and word accesses
force address bit 0 to zero: the word index is even and `RDMEM_W` /
`WRMEM_W` at an odd address access the word at the even address below. -/
theorem wrmem_b_half_word (r : MemoryRegion) (addr v : Nat) :
    (addr % 2 = 1 →
        read_word (WRMEM_B_mr r addr v)
            (wordIndex r.size ((addr % 4294967296) &&& 0xFFFFFFFE)) =
          ((r.data (wordIndex r.size ((addr % 4294967296) &&& 0xFFFFFFFE)) % 256) <<< 8) |||
            (v % 256)) ∧
      (addr % 2 = 0 →
          read_word (WRMEM_B_mr r addr v)
              (wordIndex r.size ((addr % 4294967296) &&& 0xFFFFFFFE)) =
            ((v % 256) <<< 8) |||
              (r.data (wordIndex r.size ((addr % 4294967296) &&& 0xFFFFFFFE) + 1) % 256)) ∧
      (∀ j, j ≠ wordIndex r.size ((addr % 4294967296) &&& 0xFFFFFFFE) →
          j ≠ wordIndex r.size ((addr % 4294967296) &&& 0xFFFFFFFE) + 1 →
          (WRMEM_B_mr r addr v).data j = r.data j) ∧
      wordIndex r.size addr % 2 = 0 ∧
      (∀ a2 v2, a2 % 2 = 1 →
          RDMEM_W_mr r a2 = RDMEM_W_mr r (a2 - 1) ∧
          WRMEM_W_mr r a2 v2 = WRMEM_W_mr r (a2 - 1) v2) := by
  have hb : v % 256 < 256 := Nat.mod_lt _ (by norm_num)
  have hBIT : BIT (addr % 4294967296) 0 = addr % 2 := by
    unfold BIT
    rw [Nat.shiftRight_zero, and_one_eq_mod_two]
    omega
  refine ⟨?_, ?_, ?_, wordIndex_even r.size addr, ?_⟩
  · intro hodd
    have hmask :
        (if BIT (addr % 4294967296) 0 ≠ 0 then (0x00ff : Nat)
         else 0xff00) = 0x00ff := by
      rw [hBIT, hodd]
      norm_num
    unfold WRMEM_B_mr adjust_addr_for_nonseg_mode
    dsimp only
    rw [hmask]
    obtain ⟨e0, e1, _⟩ :=
      write_word_masked_lo r ((addr % 4294967296) &&& 0xFFFFFFFE) (v % 256) hb
    unfold read_word
    simp only [write_word_masked_size]
    rw [wordIndex_idem, e0, e1]
    rw [mod256_mod256, mod256_mod256]
  · intro heven
    have hmask :
        (if BIT (addr % 4294967296) 0 ≠ 0 then (0x00ff : Nat)
         else 0xff00) = 0xff00 := by
      rw [hBIT, heven]
      norm_num
    unfold WRMEM_B_mr adjust_addr_for_nonseg_mode
    dsimp only
    rw [hmask]
    obtain ⟨e0, e1, _⟩ :=
      write_word_masked_hi r ((addr % 4294967296) &&& 0xFFFFFFFE) (v % 256) hb
    unfold read_word
    simp only [write_word_masked_size]
    rw [wordIndex_idem, e0, e1]
    rw [mod256_mod256, mod256_mod256]
  · intro j hj1 hj2
    by_cases hpar : addr % 2 = 1
    · have hmask :
          (if BIT (addr % 4294967296) 0 ≠ 0 then (0x00ff : Nat)
           else 0xff00) = 0x00ff := by
        rw [hBIT, hpar]
        norm_num
      unfold WRMEM_B_mr adjust_addr_for_nonseg_mode
      dsimp only
      rw [hmask]
      obtain ⟨_, _, e2⟩ :=
        write_word_masked_lo r ((addr % 4294967296) &&& 0xFFFFFFFE) (v % 256) hb
      exact e2 j hj1 hj2
    · have hmask :
          (if BIT (addr % 4294967296) 0 ≠ 0 then (0x00ff : Nat)
           else 0xff00) = 0xff00 := by
        rw [hBIT]
        have heven : addr % 2 = 0 := by omega
        rw [heven]
        norm_num
      unfold WRMEM_B_mr adjust_addr_for_nonseg_mode
      dsimp only
      rw [hmask]
      obtain ⟨_, _, e2⟩ :=
        write_word_masked_hi r ((addr % 4294967296) &&& 0xFFFFFFFE) (v % 256) hb
      exact e2 j hj1 hj2
  · intro a2 v2 hodd2
    have h1 : (a2 % 4294967296) % 2 = 1 := by omega
    have key : (a2 % 4294967296) &&& 0xFFFFFFFE =
        ((a2 - 1) % 4294967296) &&& 0xFFFFFFFE := by
      rw [odd_sub_one_and_even_mask 0xFFFFFFFE h1 (by norm_num)]
      have hsub : a2 % 4294967296 - 1 = (a2 - 1) % 4294967296 := by omega
      rw [hsub]
    constructor
    · unfold RDMEM_W_mr adjust_addr_for_nonseg_mode
      rw [key]
    · unfold WRMEM_W_mr adjust_addr_for_nonseg_mode
      rw [key]

/-- C4 (witness): the byte-write theorem instantiated at a 64 KiB region
holding 0xAB 0xCD at offsets 0x10 0x11, writing 0x5E to the odd address
0x11. -/
theorem wrmem_b_half_word_witness :
    (17 % 2 = 1) ∧
      read_word (WRMEM_B_mr bytesRegion 17 0x5E)
          (wordIndex bytesRegion.size ((17 % 4294967296) &&& 0xFFFFFFFE)) =
        ((bytesRegion.data
              (wordIndex bytesRegion.size ((17 % 4294967296) &&& 0xFFFFFFFE)) % 256) <<< 8) |||
          (0x5E % 256) :=
  ⟨rfl, (wrmem_b_half_word bytesRegion 17 0x5E).1 rfl⟩

end Z8000
